import Mathlib

/-
  Shallow embedding of the chunk-processing core of the `transcriber` backend
  (src/backend/app): the hallucination filter, the loudness-normalization
  decision, the diarization merger, the transcription pipeline orchestration
  and the conversation-status state machine.

  Times, durations and dB volumes are modelled as rationals.  Python strings
  are modelled as `List Char` (`Chars` below); Python's `str.lower`,
  `str.strip`, `str.split()` and `str.count` are reimplemented on that type
  with the same semantics on the inputs the code uses (ASCII text, non-empty
  search patterns).  Effectful calls (ffprobe, the Whisper model, the
  pyannote pipeline) are modelled as oracle fields of an environment record,
  and the pipeline functions additionally report which engines they invoked.
-/

set_option allowUnsafeReducibility true in
attribute [semireducible] Rat.sub Rat.add Rat.mul Rat.inv Rat.ofScientific

namespace Transcriber

abbrev Chars := List Char

/-- Python `str.lower()` (ASCII case folding, which is all the code relies on). -/
def pyLower (s : Chars) : Chars := s.map Char.toLower

/-- Python `str.strip()`: drop leading and trailing whitespace. -/
def pyStrip (s : Chars) : Chars :=
  ((s.dropWhile Char.isWhitespace).reverse.dropWhile Char.isWhitespace).reverse

/-- Helper for `pySplit`: accumulates the current word (reversed) while scanning. -/
def splitAux : Chars → Chars → List Chars
  | [], acc => if acc = [] then [] else [acc.reverse]
  | c :: rest, acc =>
    if c.isWhitespace then
      if acc = [] then splitAux rest [] else acc.reverse :: splitAux rest []
    else splitAux rest (c :: acc)

/-- Python `str.split()` with no argument: split on whitespace runs, no empty words. -/
def pySplit (s : Chars) : List Chars := splitAux s []

/-- Is the first list a prefix of the second? (Bool-valued, by direct recursion.) -/
def listStartsWith : Chars → Chars → Bool
  | [], _ => true
  | _ :: _, [] => false
  | p :: ps, c :: cs => p == c && listStartsWith ps cs

/-- Helper for `pyCount`: scan the text; at skip 0 test for a match and, on a hit,
    skip the rest of the pattern (non-overlapping count, exactly like CPython). -/
def pyCountGo (pat : Chars) : Chars → Nat → Nat
  | [], _ => 0
  | _ :: t, Nat.succ skip => pyCountGo pat t skip
  | c :: t, 0 =>
    if listStartsWith pat (c :: t) then 1 + pyCountGo pat t (pat.length - 1)
    else pyCountGo pat t 0

/-- Python `text.count(pat)` for non-empty `pat` (the only way the code calls it):
    number of non-overlapping occurrences, scanning left to right. -/
def pyCount (pat text : Chars) : Nat := pyCountGo pat text 0

/-- The fixed denylist of generic filler phrases in
    `TranscriberService._is_likely_hallucination`. -/
def hallucinationPhrases : List Chars :=
  ["thank you", "thanks for watching", "subscribe", "like and subscribe",
   "see you next time", "bye", "goodbye"].map String.data

/-- Rule 1 of the filter: the whole (lowered, stripped) text equals a denylist
    phrase, with an optional trailing period. -/
def isDenylisted (tl : Chars) : Bool :=
  hallucinationPhrases.any (fun p => tl == p || tl == p ++ ['.'])

/-- The alphanumeric-normalized words used by the single-word-dominance rule
    (`clean_word` in the source); empty residues are discarded. -/
def cleanWords (words : List Chars) : List Chars :=
  (words.map (fun w => w.filter Char.isAlphanum)).filter (fun w => !w.isEmpty)

/-- Rule 2 of the filter: some normalized word occurs at least 4 times and makes
    up more than 40% of the word count.  The source compares
    `count / len(words) > 0.4` in floats; for word counts far below 2^50 that
    is exactly the rational comparison `5 * count > 2 * len(words)` used here. -/
def wordDominance (words : List Chars) : Bool :=
  let cleaned := cleanWords words
  cleaned.any (fun w =>
    decide (4 ≤ cleaned.count w ∧ 2 * words.length < 5 * cleaned.count w))

/-- The candidate phrase of the repetition rule: the first `n` words re-joined
    with single spaces (`' '.join(words[:pattern_len])`). -/
def phrasePattern (words : List Chars) (n : Nat) : Chars :=
  List.intercalate [' '] (words.take n)

/-- The per-length test of rule 3: the phrase occurs at least 3 times and
    `len(pattern) * count > len(text_lower) * 0.5`; multiplying by 0.5 is exact
    in binary floating point, so this is exactly
    `2 * (len(pattern) * count) > len(text_lower)`. -/
def phraseCond (tl : Chars) (words : List Chars) (n : Nat) : Bool :=
  let pattern := phrasePattern words n
  decide (3 ≤ pyCount pattern tl ∧ tl.length < 2 * (pattern.length * pyCount pattern tl))

/-- Rule 3 of the filter: Python iterates
    `for pattern_len in range(1, min(5, len(words) // 3 + 1))`. -/
def phraseRepetition (tl : Chars) (words : List Chars) : Bool :=
  (List.range' 1 (min 5 (words.length / 3 + 1) - 1)).any (fun n => phraseCond tl words n)

/-- Model of `TranscriberService._is_likely_hallucination`: the early `return True`s of the
    source become an if-chain. -/
def isLikelyHallucination (text : Chars) : Bool :=
  if text = [] then false
  else
    let tl := pyStrip (pyLower text)
    let words := pySplit tl
    if isDenylisted tl then true
    else if 4 ≤ words.length ∧ wordDominance words then true
    else if 6 ≤ words.length ∧ phraseRepetition tl words then true
    else false

/-- Python's builtin `abs` on numbers, written so that it evaluates by kernel
    reduction (Mathlib's lattice `|·|` does not). -/
def pyAbs (q : ℚ) : ℚ := if q < 0 then -q else q

/-- The decision part of `TranscriberService.normalize_audio` (lines 95–116),
    given a successfully measured mean volume: `none` means normalization is
    skipped, `some g` means a gain of `g` dB is applied. -/
def normalizeAudioGain (target_db mean_volume : ℚ) : Option ℚ :=
  let gain := target_db - mean_volume
  if pyAbs gain < 10 then none
  else some (if 50 < gain then 50 else gain)

/-- Default `target_db` of `normalize_audio`. -/
def targetDbDefault : ℚ := -20

/-! Section: DiarizerService (src/backend/app/services/diarizer.py) -/

/-- A Whisper segment as consumed by `merge_with_transcript`: keys `start`,
    `end` (named `stop` here since `end` is a Lean keyword) and `text`. -/
structure WhisperSegment where
  start : ℚ
  stop : ℚ
  text : Chars
deriving DecidableEq

/-- A diarization turn produced by `DiarizerService.diarize`: keys `start`,
    `end` (here `stop`) and `speaker`. -/
structure DiarizationTurn where
  start : ℚ
  stop : ℚ
  speaker : String
deriving DecidableEq

/-- An entry of `raw_segments`: a Whisper segment with its assigned speaker. -/
structure RawSegment where
  start : ℚ
  stop : ℚ
  text : Chars
  speaker : String
deriving DecidableEq

/-- A consolidated paragraph produced by `_consolidate_speaker_segments`. -/
structure ConsolidatedSegment where
  start : ℚ
  stop : ℚ
  speaker : String
  text : Chars
deriving DecidableEq

/-- The structured payload returned by `merge_with_transcript`.  The
    `raw_segments` key is absent (`none`) in the empty-result literals built by
    `transcribe_with_diarization`, hence the `Option`. -/
structure DiarizationPayload where
  segments : List ConsolidatedSegment
  raw_segments : Option (List RawSegment) := none
  speakers : List String
  full_text : Chars
deriving DecidableEq

/-- The literal `{"segments": [], "speakers": [], "full_text": ""}` used for
    short audio, empty transcripts and diarization failures. -/
def emptyDiarizationResult : DiarizationPayload :=
  { segments := [], speakers := [], full_text := [] }

/-- Temporal overlap of the time range `[s, e]` with a diarization turn:
    `max(0, min(end, d_end) - max(start, d_start))`. -/
def overlapLen (s e : ℚ) (d : DiarizationTurn) : ℚ :=
  max 0 (min e d.stop - max s d.start)

/-- The loop of `_find_speaker_for_segment`, carrying `best_speaker` and
    `best_overlap` (a new best requires a strictly larger overlap). -/
def findAux (s e : ℚ) : List DiarizationTurn → String → ℚ → String
  | [], bestSpk, _ => bestSpk
  | d :: ds, bestSpk, bestOv =>
    if bestOv < overlapLen s e d then findAux s e ds d.speaker (overlapLen s e d)
    else findAux s e ds bestSpk bestOv

/-- Model of `DiarizerService._find_speaker_for_segment`. -/
def findSpeakerForSegment (s e : ℚ) (ds : List DiarizationTurn) : String :=
  findAux s e ds "UNKNOWN" 0

/-- The loop of `_consolidate_speaker_segments` after the first segment has
    opened a turn: state `(current_speaker, current_texts, current_start,
    current_end)`; `current_texts` is always non-empty here, so the
    `if current_speaker is not None and current_texts` guard of the source is
    always true when a turn is flushed. -/
def consolidateGo (spk : String) (texts : List Chars) (st en : ℚ) :
    List RawSegment → List ConsolidatedSegment
  | [] => [{ start := st, stop := en, speaker := spk, text := List.intercalate [' '] texts }]
  | seg :: rest =>
    if seg.speaker = spk then
      consolidateGo spk (texts ++ [seg.text]) st seg.stop rest
    else
      { start := st, stop := en, speaker := spk, text := List.intercalate [' '] texts } ::
        consolidateGo seg.speaker [seg.text] seg.start seg.stop rest

/-- Model of `DiarizerService._consolidate_speaker_segments`. -/
def consolidateSpeakerSegments : List RawSegment → List ConsolidatedSegment
  | [] => []
  | seg :: rest => consolidateGo seg.speaker [seg.text] seg.start seg.stop rest

/-- Model of `DiarizerService._format_transcript_with_speakers`: lines
    `"[{speaker}]: {text}"` joined with newlines (the empty list gives `""`,
    matching the source's early return). -/
def formatTranscriptWithSpeakers (segs : List ConsolidatedSegment) : Chars :=
  List.intercalate ['\n']
    (segs.map (fun s => '[' :: (s.speaker.data ++ (']' :: ':' :: ' ' :: s.text))))

/-- Python's banker's rounding (`round`) to an integer, on exact rationals. -/
def roundHalfEven (x : ℚ) : ℤ :=
  let f := x.floor
  if x - f < 1/2 then f
  else if 1/2 < x - f then f + 1
  else if f % 2 = 0 then f else f + 1

/-- Python `round(x, 3)` on exact rationals. -/
def round3 (x : ℚ) : ℚ := (roundHalfEven (x * 1000) : ℚ) / 1000

/-- Model of `DiarizerService.merge_with_transcript`: assign a speaker to every Whisper
    segment whose stripped text is non-empty (the others are skipped), then
    consolidate, collect the sorted distinct speakers and render the full
    text. -/
def mergeWithTranscript (whisperSegments : List WhisperSegment)
    (turns : List DiarizationTurn) : DiarizationPayload :=
  let raw := whisperSegments.filterMap (fun seg =>
    let text := pyStrip seg.text
    if text = [] then none
    else some { start := round3 seg.start, stop := round3 seg.stop, text := text,
                speaker := findSpeakerForSegment seg.start seg.stop turns })
  { segments := consolidateSpeakerSegments raw,
    raw_segments := some raw,
    speakers := ((raw.map (·.speaker)).dedup).insertionSort (· ≤ ·),
    full_text := formatTranscriptWithSpeakers (consolidateSpeakerSegments raw) }

/-! Section: TranscriberService pipeline (src/backend/app/services/transcriber.py)

The effectful steps are modelled by an oracle environment `AsrEnv`: ffprobe's
duration of the conditioned audio, the Whisper call's text and segments, the
restricted language-detection probabilities and the outcome of the pyannote
`diarize` call (`Except` models a raised exception, covering both the
`ImportError` and the generic `Exception` handler, which behave identically).
Audio conditioning (WebM conversion, loudness normalization, silence trimming)
only rewrites the temporary file consumed by the engines and does not change
any modelled output, so it does not appear in the environment.  Each pipeline
function also reports whether the ASR inference and the diarization engine
were invoked. -/

/-- Oracle environment for one pipeline invocation on one audio file. -/
structure AsrEnv where
  duration : ℚ
  whisperText : Chars
  whisperSegments : List WhisperSegment
  en_prob : ℚ
  he_prob : ℚ
  diarization : Except String (List DiarizationTurn)

/-- The result dictionary built by `transcribe` / `transcribe_with_diarization`.
    The `is_hallucination` and `transcript_segments` keys are optional because
    the source dictionaries do not always carry them (in particular, no result
    dictionary built in transcriber.py ever contains `is_hallucination`). -/
structure TranscribeResult where
  text : Chars
  language : String
  source_language : String
  segments : List WhisperSegment
  duration : ℚ
  is_hallucination : Option Bool := none
  transcript_segments : Option DiarizationPayload := none
deriving DecidableEq

/-- A pipeline result together with which ML engines were invoked. -/
structure TranscribeOutcome where
  result : TranscribeResult
  asrInvoked : Bool
  diarizeCalled : Bool
deriving DecidableEq

/-- Model of `TranscriberService.detect_language_restricted`:
    `"en" if en_prob >= he_prob else "he"`. -/
def detectLanguageRestricted (en_prob he_prob : ℚ) : String :=
  if he_prob ≤ en_prob then "en" else "he"

/-- The shared source-language step: `if language and language != "auto"` use it,
    else run restricted detection. -/
def sourceLanguageFor (env : AsrEnv) (language : String) : String :=
  if language ≠ "" ∧ language ≠ "auto" then language
  else detectLanguageRestricted env.en_prob env.he_prob

/-- The transcript text after the hallucination filter:
    `text = result["text"].strip()`, then nulled if flagged. -/
def postFilterText (env : AsrEnv) : Chars :=
  let t := pyStrip (env.whisperText)
  if isLikelyHallucination t then [] else t

/-- Model of `result.get("segments", [{}])[-1].get("end", 0) if result.get("segments") else 0`. -/
def lastSegmentStop : List WhisperSegment → ℚ
  | [] => 0
  | s :: rest => (rest.getLastD s).stop

/-- Model of `TranscriberService.transcribe` (lines 311–418). -/
def transcribeModel (env : AsrEnv) (language : String) : TranscribeOutcome :=
  if env.duration < 1/2 then
    { result := { text := [], language := "en",
                  source_language := if language ≠ "auto" then language else "en",
                  segments := [], duration := env.duration },
      asrInvoked := false, diarizeCalled := false }
  else
    { result := { text := postFilterText env, language := "en",
                  source_language := sourceLanguageFor env language,
                  segments := env.whisperSegments,
                  duration := lastSegmentStop env.whisperSegments },
      asrInvoked := true, diarizeCalled := false }

/-- Model of `TranscriberService.transcribe_with_diarization` (lines 500–683).  The
    `except ImportError` / `except Exception` handlers both fall back to
    `cls.transcribe(audio_path, ...)` — in the model, to `transcribeModel` on
    the same oracle — and attach the empty diarization result. -/
def transcribeWithDiarizationModel (env : AsrEnv) (language : String) : TranscribeOutcome :=
  if env.duration < 1/2 then
    { result := { text := [], language := "en",
                  source_language := if language ≠ "auto" then language else "en",
                  segments := [], duration := env.duration,
                  transcript_segments := some emptyDiarizationResult },
      asrInvoked := false, diarizeCalled := false }
  else
    let text := postFilterText env
    let base : TranscribeResult :=
      { text := text, language := "en",
        source_language := sourceLanguageFor env language,
        segments := env.whisperSegments,
        duration := lastSegmentStop env.whisperSegments }
    if text = [] ∨ env.whisperSegments = [] then
      { result := { base with transcript_segments := some emptyDiarizationResult },
        asrInvoked := true, diarizeCalled := false }
    else
      match env.diarization with
      | .error _ =>
        let fallback := transcribeModel env language
        { result := { fallback.result with transcript_segments := some emptyDiarizationResult },
          asrInvoked := true, diarizeCalled := true }
      | .ok turns =>
        { result := { base with
                      transcript_segments := some (mergeWithTranscript env.whisperSegments turns) },
          asrInvoked := true, diarizeCalled := true }

/-! Section: orchestrator and state machine
(src/backend/app/routers/transcriptions.py, src/backend/app/services/conversation_service.py) -/

/-- The fields of a `Transcription` row touched by the success path of
    `process_transcription`. -/
structure TranscriptionRecord where
  transcript_text : Option Chars := none
  detected_language : Option String := none
  duration_sec : Option ℚ := none
  is_hallucination : Bool := false
  status : String := "pending"
  transcript_segments : Option DiarizationPayload := none
  completed_at : Option ℚ := none
  error_message : Option String := none
deriving DecidableEq

/-- The success-path record update of `process_transcription` (lines 148–167):
    `detected_language` is set from `result["language"]`, the hallucination
    flag from `result.get("is_hallucination", False)`, and
    `transcript_segments` only `if result.get("transcript_segments")` is a
    truthy value (the empty-result dictionary has keys, hence is truthy). -/
def processTranscriptionUpdate (rec : TranscriptionRecord) (r : TranscribeResult)
    (now : ℚ) : TranscriptionRecord :=
  { rec with
    transcript_text := some r.text,
    detected_language := some r.language,
    duration_sec := some r.duration,
    is_hallucination := r.is_hallucination.getD false,
    status := "completed",
    completed_at := some now,
    transcript_segments := match r.transcript_segments with
      | some p => some p
      | none => rec.transcript_segments }

/-- One chunk row as seen by the conversation-status derivation. -/
structure ChunkRecord where
  status : String
  duration_sec : Option ℚ := none
deriving DecidableEq

/-- One conversation row. -/
structure ConversationRecord where
  status : String
  completed_at : Option ℚ := none
  total_duration_sec : Option ℚ := none
  chunks : List ChunkRecord
deriving DecidableEq

/-- Model of `sum(chunk.duration_sec or 0 for chunk in conversation.chunks)`. -/
def chunkDurationSum (chunks : List ChunkRecord) : ℚ :=
  chunks.foldl (fun a c => a + c.duration_sec.getD 0) 0

/-- Model of `_refresh_conversation_status` in routers/transcriptions.py (lines 191–221):
    the duration is always recomputed; status derivation is skipped while
    `recording` or with no chunks; in the all-`completed` branch `completed_at`
    is overwritten unconditionally. -/
def refreshConversationStatus (conv : ConversationRecord) (now : ℚ) : ConversationRecord :=
  let conv1 := { conv with total_duration_sec := some (chunkDurationSum conv.chunks) }
  if conv1.status = "recording" then conv1
  else
    let statuses := conv1.chunks.map (·.status)
    if statuses = [] then conv1
    else if statuses.all (· == "completed") then
      { conv1 with status := "completed", completed_at := some now }
    else if statuses.any (fun s => s == "pending" || s == "processing") then
      { conv1 with status := "processing" }
    else if statuses.any (· == "failed") then
      { conv1 with status := "failed" }
    else conv1

/-- Model of `ConversationService.refresh_status` (services/conversation_service.py,
    lines 10–56): identical derivation, except that `completed_at` is only set
    `if not conversation.completed_at`. -/
def refreshStatusService (conv : ConversationRecord) (now : ℚ) : ConversationRecord :=
  let conv1 := { conv with total_duration_sec := some (chunkDurationSum conv.chunks) }
  if conv1.status = "recording" then conv1
  else
    let statuses := conv1.chunks.map (·.status)
    if statuses = [] then conv1
    else if statuses.all (· == "completed") then
      { conv1 with status := "completed",
                   completed_at := match conv1.completed_at with
                     | none => some now
                     | some t => some t }
    else if statuses.any (fun s => s == "pending" || s == "processing") then
      { conv1 with status := "processing" }
    else if statuses.any (· == "failed") then
      { conv1 with status := "failed" }
    else conv1

/-! Section: specification-side definitions and test fixtures -/

/-- Written from the specification's wording for the consolidation step (not
    from the source): the maximal runs of consecutive segments sharing a
    speaker label, in order. -/
def speakerRuns : List RawSegment → List (List RawSegment)
  | [] => []
  | seg :: rest =>
    (seg :: rest.takeWhile (fun s => s.speaker == seg.speaker)) ::
      speakerRuns (rest.dropWhile (fun s => s.speaker == seg.speaker))
  termination_by l => l.length
  decreasing_by
    simp only [List.length_cons]
    have := (List.dropWhile_sublist (l := rest) (fun s => s.speaker == seg.speaker)).length_le
    omega

/-- Written from the specification's wording: the paragraph a run is merged
    into — first segment's start, last segment's end, the shared speaker, and
    the texts joined by single spaces. -/
def mkParagraph : List RawSegment → ConsolidatedSegment
  | [] => { start := 0, stop := 0, speaker := "", text := [] }
  | seg :: rest =>
    { start := seg.start, stop := (rest.getLastD seg).stop, speaker := seg.speaker,
      text := List.intercalate [' '] ((seg :: rest).map (·.text)) }

/-- The end time of the last segment of a run, with a default for the empty
    run (used to state what `consolidateGo` accumulates). -/
def lastStop (en : ℚ) : List RawSegment → ℚ
  | [] => en
  | seg :: rest => lastStop seg.stop rest

/-- The four chunk statuses the system produces. -/
abbrev validStatus (s : String) : Prop :=
  s = "pending" ∨ s = "processing" ∨ s = "completed" ∨ s = "failed"

/-- Fixture: an audio file whose probed duration is below the 0.5 s cutoff. -/
def envShort : AsrEnv :=
  { duration := 1/4, whisperText := [], whisperSegments := [],
    en_prob := 1, he_prob := 0, diarization := .ok [] }

/-- Fixture: a chunk whose ASR text is a denylisted hallucination phrase. -/
def envHalluc : AsrEnv :=
  { duration := 1, whisperText := "thank you.".data,
    whisperSegments := [{ start := 0, stop := 1, text := "thank you.".data }],
    en_prob := 1, he_prob := 0,
    diarization := .ok [{ start := 0, stop := 1, speaker := "SPEAKER_00" }] }

/-- Fixture: a chunk whose restricted language detection picks Hebrew. -/
def envHebrew : AsrEnv :=
  { duration := 1, whisperText := "hello there friend".data,
    whisperSegments := [{ start := 0, stop := 1, text := "hello there friend".data }],
    en_prob := 1/10, he_prob := 9/10, diarization := .ok [] }

/-- Fixture: a chunk with usable text whose diarization call raises. -/
def envDiarFail : AsrEnv :=
  { duration := 2, whisperText := "hello there friend".data,
    whisperSegments := [{ start := 0, stop := 2, text := "hello there friend".data }],
    en_prob := 1, he_prob := 0, diarization := .error "pipeline failed" }

/-- Fixture: a conversation whose completion timestamp is already set and whose
    chunks are all completed. -/
def convDone : ConversationRecord :=
  { status := "processing", completed_at := some 5, total_duration_sec := none,
    chunks := [{ status := "completed", duration_sec := some 2 }] }

/-- Fixture: a conversation with one completed and one processing chunk. -/
def convMixed : ConversationRecord :=
  { status := "completed", completed_at := none, total_duration_sec := none,
    chunks := [{ status := "completed", duration_sec := some 2 },
               { status := "processing", duration_sec := none }] }

/-! Section: theorems -/

theorem pyAbs_eq_abs (q : ℚ) : pyAbs q = |q| := by
  unfold pyAbs
  split_ifs with h
  · exact (abs_of_neg h).symm
  · exact (abs_of_nonneg (not_lt.mp h)).symm

/-- C6: for every input whose mean loudness was successfully measured,
    loudness normalization is skipped if and only if the distance between the
    target and the measured mean is below 10 dB; otherwise the applied gain is
    the difference clamped from above to 50 dB, and the target defaults to
    −20 dBFS. -/
theorem C6_normalization_gain (target mean : ℚ) :
    (normalizeAudioGain target mean = none ↔ |target - mean| < 10) ∧
    (∀ g, normalizeAudioGain target mean = some g → g = min (target - mean) 50) ∧
    targetDbDefault = -20 := by
  refine ⟨?_, ?_, rfl⟩
  · unfold normalizeAudioGain
    simp only [pyAbs_eq_abs]
    split_ifs with h
    · simp [h]
    · simp [h]
  · intro g hg
    unfold normalizeAudioGain at hg
    simp only [pyAbs_eq_abs] at hg
    split_ifs at hg with h h50
    · rw [Option.some_inj] at hg
      rw [← hg, min_eq_right (le_of_lt h50)]
    · rw [Option.some_inj] at hg
      rw [← hg, min_eq_left (not_lt.mp h50)]

theorem C6_normalization_gain_witness :
    normalizeAudioGain (-20) (-15) = none ∧ (50 : ℚ) = min ((-20 : ℚ) - (-70)) 50 :=
  ⟨(C6_normalization_gain (-20) (-15)).1.mpr (by rw [← pyAbs_eq_abs]; decide),
   (C6_normalization_gain (-20) (-70)).2.1 50 (by decide)⟩

/-- C5: for every input whose probed duration is below 0.5 seconds, both
    pipelines return empty text, no segments and the probed duration, without
    invoking the ASR or diarization engines. -/
theorem C5_short_audio (env : AsrEnv) (language : String)
    (h : env.duration < 1/2) :
    (transcribeModel env language).result.text = [] ∧
    (transcribeModel env language).result.segments = [] ∧
    (transcribeModel env language).result.duration = env.duration ∧
    (transcribeModel env language).asrInvoked = false ∧
    (transcribeModel env language).diarizeCalled = false ∧
    (transcribeWithDiarizationModel env language).result.text = [] ∧
    (transcribeWithDiarizationModel env language).result.segments = [] ∧
    (transcribeWithDiarizationModel env language).result.duration = env.duration ∧
    (transcribeWithDiarizationModel env language).asrInvoked = false ∧
    (transcribeWithDiarizationModel env language).diarizeCalled = false := by
  unfold transcribeModel transcribeWithDiarizationModel
  rw [if_pos h, if_pos h]
  simp

theorem C5_short_audio_witness :
    envShort.duration < 1/2 ∧
    (transcribeModel envShort "auto").result.duration = envShort.duration ∧
    (transcribeWithDiarizationModel envShort "auto").asrInvoked = false ∧
    (transcribeWithDiarizationModel envShort "auto").diarizeCalled = false :=
  ⟨by decide,
   (C5_short_audio envShort "auto" (by decide)).2.2.1,
   (C5_short_audio envShort "auto" (by decide)).2.2.2.2.2.2.2.2.1,
   (C5_short_audio envShort "auto" (by decide)).2.2.2.2.2.2.2.2.2⟩

/-- C10: in the diarization-enabled pipeline, whenever the post-filter
    transcript text is empty (e.g. nulled by the hallucination filter) or the
    ASR segment list is empty, the diarization engine is not invoked and the
    returned `transcript_segments` payload is exactly the empty result. -/
theorem C10_skip_diarization (env : AsrEnv) (language : String)
    (h : postFilterText env = [] ∨ env.whisperSegments = []) :
    (transcribeWithDiarizationModel env language).diarizeCalled = false ∧
    (transcribeWithDiarizationModel env language).result.transcript_segments
      = some emptyDiarizationResult := by
  unfold transcribeWithDiarizationModel
  by_cases hd : env.duration < 1/2
  · rw [if_pos hd]
    exact ⟨rfl, rfl⟩
  · rw [if_neg hd]
    rcases h with h | h
    · simp [h]
    · simp [h]

theorem C10_skip_diarization_witness :
    postFilterText envHalluc = [] ∧
    (transcribeWithDiarizationModel envHalluc "en").diarizeCalled = false ∧
    (transcribeWithDiarizationModel envHalluc "en").result.transcript_segments
      = some emptyDiarizationResult :=
  ⟨by decide,
   (C10_skip_diarization envHalluc "en" (Or.inl (by decide))).1,
   (C10_skip_diarization envHalluc "en" (Or.inl (by decide))).2⟩

/-- C9: if the diarization call fails (import failure or raised exception),
    the pipeline still returns the plain transcription result — the chunk
    completes via the orchestrator's success path — with the empty diarization
    payload attached instead of failing the job. -/
theorem C9_diarization_failure (env : AsrEnv) (language : String) (e : String)
    (h : env.diarization = .error e) :
    (transcribeWithDiarizationModel env language).result
      = { (transcribeModel env language).result with
          transcript_segments := some emptyDiarizationResult } ∧
    ∀ rec now,
      (processTranscriptionUpdate rec
        (transcribeWithDiarizationModel env language).result now).status = "completed" := by
  constructor
  · unfold transcribeWithDiarizationModel transcribeModel
    by_cases hd : env.duration < 1/2
    · simp only [if_pos hd]
    · simp only [if_neg hd]
      rw [h]
      split_ifs with hskip
      · rfl
      · rfl
  · intro rec now
    rfl

theorem C9_diarization_failure_witness :
    (transcribeWithDiarizationModel envDiarFail "en").result
      = { (transcribeModel envDiarFail "en").result with
          transcript_segments := some emptyDiarizationResult } ∧
    (processTranscriptionUpdate {} (transcribeWithDiarizationModel envDiarFail "en").result 9).status
      = "completed" :=
  ⟨(C9_diarization_failure envDiarFail "en" "pipeline failed" (by rfl)).1,
   (C9_diarization_failure envDiarFail "en" "pipeline failed" (by rfl)).2 {} 9⟩

/-- C1 is wrong about the code: when the ASR text is classified as a
    hallucination, the orchestrator does null the stored transcript text, but
    the stored hallucination flag is `False`, because the result dictionaries
    built by `transcribe` / `transcribe_with_diarization` never contain the
    `is_hallucination` key that `process_transcription` reads with default
    `False`.  Evaluated here at a denylisted ASR text. -/
theorem C1_hallucination_flag_dropped :
    isLikelyHallucination (pyStrip envHalluc.whisperText) = true ∧
    (processTranscriptionUpdate {} (transcribeModel envHalluc "en").result 100).transcript_text
      = some [] ∧
    (processTranscriptionUpdate {} (transcribeModel envHalluc "en").result 100).is_hallucination
      = false := by
  decide

/-- C8 is wrong about the code: the orchestrator stores
    `result["language"]` — the fixed output language `"en"` — into
    `detected_language`, not the detected/specified source language.  Evaluated
    at a chunk whose restricted detection picks Hebrew: the source language is
    `"he"` but the stored detected language is `"en"`. -/
theorem C8_detected_language_stored :
    (transcribeModel envHebrew "auto").result.source_language = "he" ∧
    (processTranscriptionUpdate {} (transcribeModel envHebrew "auto").result 100).detected_language
      = some "en" := by
  decide

/-- C2, as frozen, asserts that the completion timestamp is set only if it was
    unset.  The router's derivation `_refresh_conversation_status` — the one the
    background pipeline runs — overwrites an already-set timestamp: here a
    conversation whose `completed_at` is 5 gets it overwritten to the current
    time 7 by one derivation run. -/
theorem C2_counterexample :
    convDone.completed_at = some 5 ∧
    (refreshConversationStatus convDone 7).completed_at = some 7 := by
  decide

/-- C2 (amended): for every conversation not in `recording` status, one run of
    either conversation-status derivation yields: no chunks → status and
    timestamp unchanged; all chunks completed → status `completed`, with
    `ConversationService.refresh_status` setting the completion timestamp only
    if it was unset while the router's `_refresh_conversation_status`
    overwrites it unconditionally; any chunk pending or processing → status
    `processing` (taking priority over the failed check); otherwise (no
    pending/processing, not all completed) → status `failed`. -/
theorem C2_status_derivation (conv : ConversationRecord) (now : ℚ)
    (hrec : conv.status ≠ "recording")
    (hvalid : ∀ c ∈ conv.chunks, validStatus c.status) :
    (conv.chunks = [] →
      (refreshConversationStatus conv now).status = conv.status ∧
      (refreshStatusService conv now).status = conv.status ∧
      (refreshConversationStatus conv now).completed_at = conv.completed_at ∧
      (refreshStatusService conv now).completed_at = conv.completed_at) ∧
    (conv.chunks ≠ [] → (∀ c ∈ conv.chunks, c.status = "completed") →
      (refreshConversationStatus conv now).status = "completed" ∧
      (refreshStatusService conv now).status = "completed" ∧
      (refreshConversationStatus conv now).completed_at = some now ∧
      (refreshStatusService conv now).completed_at
        = (match conv.completed_at with | none => some now | some t => some t)) ∧
    ((∃ c ∈ conv.chunks, c.status = "pending" ∨ c.status = "processing") →
      (refreshConversationStatus conv now).status = "processing" ∧
      (refreshStatusService conv now).status = "processing") ∧
    (conv.chunks ≠ [] →
      (∀ c ∈ conv.chunks, c.status ≠ "pending" ∧ c.status ≠ "processing") →
      (¬ ∀ c ∈ conv.chunks, c.status = "completed") →
      (refreshConversationStatus conv now).status = "failed" ∧
      (refreshStatusService conv now).status = "failed") := by
  refine ⟨?_, ?_, ?_, ?_⟩
  · intro h
    simp [refreshConversationStatus, refreshStatusService, hrec, h]
  · intro hne hall
    have hb : (conv.chunks.map (fun c => c.status)).all (· == "completed") = true := by
      rw [List.all_eq_true]
      intro s hs
      rw [List.mem_map] at hs
      obtain ⟨c, hc, rfl⟩ := hs
      simp [hall c hc]
    have hne' : conv.chunks.map (fun c => c.status) ≠ [] := by
      simpa using hne
    simp [refreshConversationStatus, refreshStatusService, hrec, hne', hb]
  · intro hex
    obtain ⟨c, hc, hcs⟩ := hex
    have hany : (conv.chunks.map (fun c => c.status)).any
        (fun s => s == "pending" || s == "processing") = true := by
      rw [List.any_eq_true]
      refine ⟨c.status, List.mem_map_of_mem _ hc, ?_⟩
      rcases hcs with h | h <;> simp [h]
    have hnall : (conv.chunks.map (fun c => c.status)).all (· == "completed") = false := by
      rw [Bool.eq_false_iff]
      intro h'
      rw [List.all_eq_true] at h'
      have hcc := h' c.status (List.mem_map_of_mem _ hc)
      rcases hcs with h | h <;> simp [h] at hcc
    have hne' : conv.chunks.map (fun c => c.status) ≠ [] := by
      intro h0
      rw [List.map_eq_nil_iff] at h0
      rw [h0] at hc
      exact absurd hc (List.not_mem_nil c)
    simp [refreshConversationStatus, refreshStatusService, hrec, hne', hnall, hany]
  · intro hne hnp hnc
    have hnall : (conv.chunks.map (fun c => c.status)).all (· == "completed") = false := by
      rw [Bool.eq_false_iff]
      intro h'
      apply hnc
      rw [List.all_eq_true] at h'
      intro c hc
      have := h' c.status (List.mem_map_of_mem _ hc)
      simpa using this
    have hnany : (conv.chunks.map (fun c => c.status)).any
        (fun s => s == "pending" || s == "processing") = false := by
      rw [Bool.eq_false_iff]
      intro h'
      rw [List.any_eq_true] at h'
      obtain ⟨s, hs, hps⟩ := h'
      rw [List.mem_map] at hs
      obtain ⟨c, hc, rfl⟩ := hs
      simp only [Bool.or_eq_true, beq_iff_eq] at hps
      rcases hps with h | h
      · exact (hnp c hc).1 h
      · exact (hnp c hc).2 h
    have hanyf : (conv.chunks.map (fun c => c.status)).any (· == "failed") = true := by
      by_contra h'
      apply hnc
      intro c hc
      rcases hvalid c hc with h1 | h1 | h1 | h1
      · exact absurd h1 (hnp c hc).1
      · exact absurd h1 (hnp c hc).2
      · exact h1
      · exfalso
        apply h'
        rw [List.any_eq_true]
        exact ⟨c.status, List.mem_map_of_mem _ hc, by simp [h1]⟩
    have hne' : conv.chunks.map (fun c => c.status) ≠ [] := by
      simpa using hne
    simp [refreshConversationStatus, refreshStatusService, hrec, hne', hnall, hnany, hanyf]

theorem C2_status_derivation_witness :
    (refreshConversationStatus convMixed 3).status = "processing" ∧
    (refreshStatusService convMixed 3).status = "processing" :=
  (C2_status_derivation convMixed 3 (by decide) (by decide)).2.2.1
    ⟨{ status := "processing", duration_sec := none }, by decide, Or.inr rfl⟩

theorem findAux_of_all_le (s e : ℚ) (ds : List DiarizationTurn) (spk : String) (b : ℚ)
    (h : ∀ d ∈ ds, overlapLen s e d ≤ b) : findAux s e ds spk b = spk := by
  induction ds generalizing spk b with
  | nil => rfl
  | cons d ds ih =>
    simp only [findAux]
    rw [if_neg (not_lt.mpr (h d (List.mem_cons_self d ds)))]
    exact ih spk b (fun d' hd' => h d' (List.mem_cons_of_mem _ hd'))

theorem findAux_first_max (s e : ℚ) (d : DiarizationTurn) (post : List DiarizationTurn)
    (hpost : ∀ d' ∈ post, overlapLen s e d' ≤ overlapLen s e d) :
    ∀ (pre : List DiarizationTurn) (spk : String) (b : ℚ),
      b < overlapLen s e d →
      (∀ d' ∈ pre, overlapLen s e d' < overlapLen s e d) →
      findAux s e (pre ++ d :: post) spk b = d.speaker := by
  intro pre
  induction pre with
  | nil =>
    intro spk b hb _
    simp only [List.nil_append, findAux]
    rw [if_pos hb]
    exact findAux_of_all_le s e post d.speaker (overlapLen s e d) hpost
  | cons p pre ih =>
    intro spk b hb hpre
    simp only [List.cons_append, findAux]
    by_cases hc : b < overlapLen s e p
    · rw [if_pos hc]
      exact ih p.speaker (overlapLen s e p) (hpre p (List.mem_cons_self p pre))
        (fun d' hd' => hpre d' (List.mem_cons_of_mem _ hd'))
    · rw [if_neg hc]
      exact ih spk b hb (fun d' hd' => hpre d' (List.mem_cons_of_mem _ hd'))

theorem mergeRaw_filter_map (ws : List WhisperSegment) (ds : List DiarizationTurn) :
    ws.filterMap (fun seg =>
      let text := pyStrip seg.text
      if text = [] then none
      else some { start := round3 seg.start, stop := round3 seg.stop, text := text,
                  speaker := findSpeakerForSegment seg.start seg.stop ds }) =
    (ws.filter (fun seg => !(pyStrip seg.text).isEmpty)).map (fun seg =>
      ({ start := round3 seg.start, stop := round3 seg.stop, text := pyStrip seg.text,
         speaker := findSpeakerForSegment seg.start seg.stop ds } : RawSegment)) := by
  induction ws with
  | nil => rfl
  | cons w ws ih =>
    rw [List.filterMap_cons, List.filter_cons]
    by_cases h : pyStrip w.text = []
    · simp [h, ih]
    · simp [h, ih, List.isEmpty_iff]

/-- C3: the merger assigns to every ASR segment with non-empty trimmed text the
    label of the diarization turn with maximal temporal overlap, breaking ties
    by insertion order (the first turn attaining the maximum wins), labels the
    segment `UNKNOWN` when no turn has positive overlap, and skips segments
    whose trimmed text is empty. -/
theorem C3_speaker_assignment :
    (∀ (ws : List WhisperSegment) (ds : List DiarizationTurn),
      (mergeWithTranscript ws ds).raw_segments
        = some ((ws.filter (fun seg => !(pyStrip seg.text).isEmpty)).map (fun seg =>
            { start := round3 seg.start, stop := round3 seg.stop,
              text := pyStrip seg.text,
              speaker := findSpeakerForSegment seg.start seg.stop ds }))) ∧
    (∀ (s e : ℚ) (ds : List DiarizationTurn),
      (∀ d ∈ ds, overlapLen s e d ≤ 0) → findSpeakerForSegment s e ds = "UNKNOWN") ∧
    (∀ (s e : ℚ) (pre post : List DiarizationTurn) (d : DiarizationTurn),
      0 < overlapLen s e d →
      (∀ d' ∈ pre, overlapLen s e d' < overlapLen s e d) →
      (∀ d' ∈ pre ++ d :: post, overlapLen s e d' ≤ overlapLen s e d) →
      findSpeakerForSegment s e (pre ++ d :: post) = d.speaker) := by
  refine ⟨?_, ?_, ?_⟩
  · intro ws ds
    unfold mergeWithTranscript
    dsimp only
    rw [mergeRaw_filter_map]
  · intro s e ds h
    exact findAux_of_all_le s e ds "UNKNOWN" 0 h
  · intro s e pre post d hd hpre hall
    exact findAux_first_max s e d post
      (fun d' hd' => hall d' (List.mem_append_right _ (List.mem_cons_of_mem _ hd')))
      pre "UNKNOWN" 0 hd hpre

theorem C3_speaker_assignment_witness :
    findSpeakerForSegment 2 4
      [{ start := 0, stop := 3, speaker := "A" }, { start := 3, stop := 5, speaker := "B" }] = "A" ∧
    findSpeakerForSegment 10 11 [{ start := 0, stop := 3, speaker := "A" }] = "UNKNOWN" :=
  ⟨C3_speaker_assignment.2.2 2 4 [] [{ start := 3, stop := 5, speaker := "B" }]
      { start := 0, stop := 3, speaker := "A" } (by decide) (by decide) (by decide),
   C3_speaker_assignment.2.1 10 11 [{ start := 0, stop := 3, speaker := "A" }] (by decide)⟩

theorem lastStop_getLastD (l : List RawSegment) :
    ∀ (en : ℚ) (d : RawSegment), d.stop = en → lastStop en l = (l.getLastD d).stop := by
  induction l with
  | nil =>
    intro en d hd
    exact hd.symm
  | cons s r ih =>
    intro en d hd
    rw [List.getLastD_cons]
    exact ih s.stop s rfl

theorem consolidateGo_eq (rest : List RawSegment) :
    ∀ (spk : String) (texts : List Chars) (st en : ℚ),
    consolidateGo spk texts st en rest =
      { start := st, stop := lastStop en (rest.takeWhile (fun s => s.speaker == spk)),
        speaker := spk,
        text := List.intercalate [' ']
          (texts ++ (rest.takeWhile (fun s => s.speaker == spk)).map (fun s => s.text)) } ::
      consolidateSpeakerSegments (rest.dropWhile (fun s => s.speaker == spk)) := by
  induction rest with
  | nil =>
    intro spk texts st en
    simp [consolidateGo, consolidateSpeakerSegments, lastStop]
  | cons seg r ih =>
    intro spk texts st en
    by_cases h : seg.speaker = spk
    · have hb : (seg.speaker == spk) = true := beq_iff_eq.mpr h
      simp only [consolidateGo]
      rw [if_pos h, ih, List.takeWhile_cons, List.dropWhile_cons]
      simp [hb, lastStop]
    · have hb : (seg.speaker == spk) = false := by
        simp [h]
      simp only [consolidateGo]
      rw [if_neg h, List.takeWhile_cons, List.dropWhile_cons]
      simp [hb, lastStop, consolidateSpeakerSegments]

theorem consolidate_eq_runs_aux :
    ∀ (n : Nat) (segs : List RawSegment), segs.length ≤ n →
      consolidateSpeakerSegments segs = (speakerRuns segs).map mkParagraph := by
  intro n
  induction n with
  | zero =>
    intro segs h
    have h0 : segs = [] := List.eq_nil_of_length_eq_zero (Nat.le_zero.mp h)
    subst h0
    simp [speakerRuns, consolidateSpeakerSegments]
  | succ n ih =>
    intro segs h
    cases segs with
    | nil => simp [speakerRuns, consolidateSpeakerSegments]
    | cons seg rest =>
      simp only [consolidateSpeakerSegments]
      rw [consolidateGo_eq, speakerRuns, List.map_cons]
      congr 1
      · have hstop := lastStop_getLastD
          (rest.takeWhile (fun s => s.speaker == seg.speaker)) seg.stop seg rfl
        simp [mkParagraph, hstop]
      · apply ih
        have hlen := (List.dropWhile_sublist (l := rest)
          (fun s => s.speaker == seg.speaker)).length_le
        simp only [List.length_cons] at h
        omega

/-- C4: consolidation merges each maximal run of consecutive segments sharing a
    speaker label into one paragraph whose text is the segments' texts joined
    by single spaces, whose start is the first segment's start and whose end is
    the last segment's end; a change of speaker label starts a new paragraph.
    (`speakerRuns`/`mkParagraph` are written from the specification's wording.) -/
theorem C4_consolidation (segs : List RawSegment) :
    consolidateSpeakerSegments segs = (speakerRuns segs).map mkParagraph :=
  consolidate_eq_runs_aux segs.length segs le_rfl

/-- C7 claims the repeating-short-phrase rule fires for phrase lengths 1..4
    whenever the text has at least 6 words.  The source iterates
    `range(1, min(5, len(words) // 3 + 1))`, i.e. lengths `1..min(4, words/3)`:
    for this 11-word text the phrase of its first 4 words occurs 3 times and
    covers more than half the text, yet the filter classifies it negative
    because length 4 is never tried (`11 // 3 = 3`). -/
theorem C7_counterexample :
    6 ≤ (pySplit (pyStrip (pyLower ("a b c dddddd za b c ddddddza b c dddddd".data)))).length ∧
    phraseCond (pyStrip (pyLower ("a b c dddddd za b c ddddddza b c dddddd".data)))
      (pySplit (pyStrip (pyLower ("a b c dddddd za b c ddddddza b c dddddd".data)))) 4 = true ∧
    isLikelyHallucination ("a b c dddddd za b c ddddddza b c dddddd".data) = false := by
  decide

/-- C7 (amended): for every text of at least 6 words, the filter classifies it
    positive whenever, for some phrase length N in `1..min(4, wordCount / 3)`,
    the phrase made of the first N words occurs at least 3 times and its
    cumulative character coverage exceeds 50% of the text length. -/
theorem C7_phrase_rule (text : Chars) (n : Nat)
    (h6 : 6 ≤ (pySplit (pyStrip (pyLower text))).length)
    (hn1 : 1 ≤ n)
    (hn4 : n ≤ min 4 ((pySplit (pyStrip (pyLower text))).length / 3))
    (hcond : phraseCond (pyStrip (pyLower text)) (pySplit (pyStrip (pyLower text))) n = true) :
    isLikelyHallucination text = true := by
  have htext : text ≠ [] := by
    intro h0
    rw [h0] at h6
    simp [pySplit, pyStrip, pyLower, splitAux] at h6
  unfold isLikelyHallucination
  rw [if_neg htext]
  dsimp only
  split_ifs with h1 h2 h3
  · rfl
  · rfl
  · rfl
  · exfalso
    apply h3
    refine ⟨h6, ?_⟩
    unfold phraseRepetition
    rw [List.any_eq_true]
    refine ⟨n, ?_, hcond⟩
    rw [List.mem_range'_1]
    exact ⟨hn1, by omega⟩

theorem C7_phrase_rule_witness :
    isLikelyHallucination ("go go go go go go".data) = true :=
  C7_phrase_rule ("go go go go go go".data) 1 (by decide) (by decide) (by decide) (by decide)

end Transcriber
